import Mathlib

/-!
# Verification of the DocSync Electron control surface

Shallow embedding of the Process Supervision & Event Bridge subsystem of the
DocSync desktop application (`electron-app/electron_main.js` and
`electron-app/gui/renderer.js`), together with proofs about its configuration
store, sync-session event stream, health probe, and UI re-entrancy guard.
-/

namespace DocSync

/-! ## JSON values and configuration documents

The configuration file holds a JSON document.  `JVal` models the JSON values
that `JSON.parse` can produce; a parsed object is an association list of
string keys to values (JS objects have unique keys, but none of the lemmas
below depend on uniqueness). -/

inductive JVal where
  | null : JVal
  | bool : Bool → JVal
  | num : Int → JVal
  | str : String → JVal
  | arr : List JVal → JVal
  | obj : List (String × JVal) → JVal

/-- A parsed JSON object: ordered association list of fields. -/
abbrev Doc := List (String × JVal)

/-- JS property assignment `o[k] = v` on an object with ordered fields:
replace the (first) binding of `k` in place, or append a new binding. -/
def setKey : Doc → String → JVal → Doc
  | [], k, v => [(k, v)]
  | p :: rest, k, v => if p.1 == k then (k, v) :: rest else p :: setKey rest k v

/-- JS property read `o[k]` (ignoring the prototype chain). -/
def getKey (d : Doc) (k : String) : Option JVal :=
  (d.find? (fun p => p.1 == k)).map (fun p => p.2)

/-- JS object spread `{...base, ...d}`: fields of `d` overwrite or extend
`base` in order. -/
def spreadMerge (base : Doc) (d : Doc) : Doc :=
  d.foldl (fun acc p => setKey acc p.1 p.2) base

/-! ## On-disk state of the configuration file

`electron_main.js` reads the file with `fs.existsSync` + `fs.readFileSync` +
`JSON.parse`; the three observable outcomes are: no file, unparseable
content (the `catch` path), or a parsed JSON value. -/

inductive DiskState where
  | missing : DiskState
  | malformed : DiskState
  | json : JVal → DiskState

/-- The default document built at the top of the `get-config` handler. -/
def defaultConfig : Doc :=
  [("feishu_app_id", JVal.str ""),
   ("feishu_app_secret", JVal.str ""),
   ("feishu_user_access_token", JVal.str ""),
   ("feishu_user_refresh_token", JVal.str ""),
   ("feishu_assets_token", JVal.str ""),
   ("tasks", JVal.arr [])]

/-- The `get-config` IPC handler (electron_main.js).  Returns the document
handed to the renderer together with a flag recording whether the
`catch (e) { console.error('Error reading config', e) }` branch ran.
A parsed non-array object is spread over the defaults; a bare array (legacy
format) becomes the `tasks` field; any other value leaves the defaults
(the code reaches the same result for primitives, which fail the
`typeof data === 'object'` test, and for `null`, whose spread is a no-op). -/
def getConfig : DiskState → Doc × Bool
  | DiskState.missing => (defaultConfig, false)
  | DiskState.malformed => (defaultConfig, true)
  | DiskState.json v =>
    match v with
    | JVal.obj fields => (spreadMerge defaultConfig fields, false)
    | JVal.arr ts => (setKey defaultConfig "tasks" (JVal.arr ts), false)
    | _ => (defaultConfig, false)

/-! ## save-config -/

/-- The payload of a `save-config` call: a partial configuration document.
The handler inspects exactly these three keys (`data.feishu_app_id`,
`data.feishu_app_secret`, `data.tasks`), each tested against `undefined`. -/
structure ConfigPartial where
  feishu_app_id : Option JVal
  feishu_app_secret : Option JVal
  tasks : Option JVal

/-- The value a partial supplies for a key, if any.  Keys other than the
three the handler merges are never taken from the partial. -/
def partialGet (p : ConfigPartial) (k : String) : Option JVal :=
  if k == "feishu_app_id" then p.feishu_app_id
  else if k == "feishu_app_secret" then p.feishu_app_secret
  else if k == "tasks" then p.tasks
  else none

/-- Keys supplied by a partial, in the order the handler assigns them. -/
def partialKeys (p : ConfigPartial) : List String :=
  (if p.feishu_app_id.isSome then ["feishu_app_id"] else []) ++
  (if p.feishu_app_secret.isSome then ["feishu_app_secret"] else []) ++
  (if p.tasks.isSome then ["tasks"] else [])

/-- Merge base of the `save-config` handler: `let config = {}` overwritten
with the parsed file content only when that content is an object and not an
array (`typeof existing === 'object' && !Array.isArray(existing)`); a
missing file, a parse error (swallowed by the empty `catch`), or an array
all leave the empty object. -/
def saveBase : DiskState → Doc
  | DiskState.json (JVal.obj fields) => fields
  | _ => []

/-- The `save-config` IPC handler (electron_main.js): read-merge-write.
Returns the document written back to disk. -/
def saveConfig (s : DiskState) (data : ConfigPartial) : Doc :=
  let config := saveBase s
  let config := match data.feishu_app_id with
    | some v => setKey config "feishu_app_id" v
    | none => config
  let config := match data.feishu_app_secret with
    | some v => setKey config "feishu_app_secret" v
    | none => config
  let config := match data.tasks with
    | some v => setKey config "tasks" v
    | none => config
  config

/-! ## Lemmas about documents -/

theorem getKey_setKey (d : Doc) (k k' : String) (v : JVal) :
    getKey (setKey d k v) k' = if k' == k then some v else getKey d k' := by
  induction d with
  | nil =>
    by_cases h : k' = k
    · subst h
      simp [setKey, getKey, List.find?]
    · have h1 : (k == k') = false := beq_eq_false_iff_ne.mpr (Ne.symm h)
      have h2 : (k' == k) = false := beq_eq_false_iff_ne.mpr h
      simp [setKey, getKey, List.find?, h1, h2]
  | cons p rest ih =>
    by_cases hp : p.1 = k
    · have hp' : (p.1 == k) = true := beq_iff_eq.mpr hp
      by_cases h : k' = k
      · subst h
        simp [setKey, getKey, List.find?, hp']
      · have h2 : (k' == k) = false := beq_eq_false_iff_ne.mpr h
        have h3 : (k == k') = false := beq_eq_false_iff_ne.mpr (Ne.symm h)
        have h4 : (p.1 == k') = false := by rw [hp]; exact h3
        simp [setKey, getKey, List.find?, hp', h2, h3, h4]
    · have hp' : (p.1 == k) = false := beq_eq_false_iff_ne.mpr hp
      by_cases hq : p.1 = k'
      · have hk : k' ≠ k := fun hc => hp (hq.trans hc)
        have h2 : (k' == k) = false := beq_eq_false_iff_ne.mpr hk
        have hq' : (p.1 == k') = true := beq_iff_eq.mpr hq
        simp [setKey, getKey, List.find?, hp', hq', h2]
      · have hq' : (p.1 == k') = false := beq_eq_false_iff_ne.mpr hq
        simpa [setKey, getKey, List.find?, hp', hq'] using ih

theorem getKey_nil (k : String) : getKey [] k = none := rfl

/-- Field-wise description of one `save-config` call: a key supplied by the
partial gets the partial's value, every other key keeps the merge base's
value. -/
theorem getKey_saveConfig (s : DiskState) (p : ConfigPartial) (k : String) :
    getKey (saveConfig s p) k = (partialGet p k).or (getKey (saveBase s) k) := by
  obtain ⟨a, b, c⟩ := p
  by_cases h1 : k = "feishu_app_id"
  · subst h1
    cases a <;> cases b <;> cases c <;>
      simp [saveConfig, partialGet, getKey_setKey]
  · by_cases h2 : k = "feishu_app_secret"
    · subst h2
      cases a <;> cases b <;> cases c <;>
        simp [saveConfig, partialGet, getKey_setKey]
    · by_cases h3 : k = "tasks"
      · subst h3
        cases a <;> cases b <;> cases c <;>
          simp [saveConfig, partialGet, getKey_setKey]
      · have e1 : (k == "feishu_app_id") = false := beq_eq_false_iff_ne.mpr h1
        have e2 : (k == "feishu_app_secret") = false := beq_eq_false_iff_ne.mpr h2
        have e3 : (k == "tasks") = false := beq_eq_false_iff_ne.mpr h3
        cases a <;> cases b <;> cases c <;>
          simp [saveConfig, partialGet, getKey_setKey, e1, e2, e3]

/-- C1: a sequence of two disjoint partial saves over an existing on-disk
document is the field-wise union of the original document and the two
partials. -/
theorem save_config_disjoint_union (d : Doc) (p1 p2 : ConfigPartial)
    (hdisj : ∀ k, (partialGet p1 k).isSome → (partialGet p2 k).isNone) :
    ∀ k,
      getKey (saveConfig (DiskState.json
          (JVal.obj (saveConfig (DiskState.json (JVal.obj d)) p1))) p2) k
        = (partialGet p1 k).or ((partialGet p2 k).or (getKey d k)) := by
  intro k
  rw [getKey_saveConfig]
  simp only [saveBase]
  rw [getKey_saveConfig]
  simp only [saveBase]
  rcases h1 : partialGet p1 k with _ | v1
  · simp
  · have h2 : (partialGet p2 k).isNone := hdisj k (by simp [h1])
    rw [Option.isNone_iff_eq_none] at h2
    simp [h2]

/-- C1 witness: the claim's concrete scenario — saving `{tasks: []}` (then an
empty partial) over a document with `feishu_app_id "cli_x"` keeps
`feishu_app_id "cli_x"` and sets `tasks` to `[]`. -/
theorem save_config_disjoint_union_witness :
    getKey (saveConfig (DiskState.json (JVal.obj (saveConfig
        (DiskState.json (JVal.obj [("feishu_app_id", JVal.str "cli_x")]))
        ⟨none, none, some (JVal.arr [])⟩))) ⟨none, none, none⟩) "feishu_app_id"
      = some (JVal.str "cli_x")
    ∧ getKey (saveConfig (DiskState.json (JVal.obj (saveConfig
        (DiskState.json (JVal.obj [("feishu_app_id", JVal.str "cli_x")]))
        ⟨none, none, some (JVal.arr [])⟩))) ⟨none, none, none⟩) "tasks"
      = some (JVal.arr []) := by
  have h := save_config_disjoint_union [("feishu_app_id", JVal.str "cli_x")]
    ⟨none, none, some (JVal.arr [])⟩ ⟨none, none, none⟩
    (by intro k hk; simp [partialGet])
  exact ⟨(h "feishu_app_id").trans rfl, (h "tasks").trans rfl⟩

/-- C10: when the on-disk file holds the legacy bare-array form, the
`save-config` merge base is the empty document: the written file holds
exactly the keys supplied by the partial, and the legacy tasks are
discarded unless the partial carries a `tasks` key. -/
theorem save_config_legacy_base_empty (ts : List JVal) (p : ConfigPartial) :
    (∀ k, getKey (saveConfig (DiskState.json (JVal.arr ts)) p) k = partialGet p k)
    ∧ (saveConfig (DiskState.json (JVal.arr ts)) p).map Prod.fst = partialKeys p := by
  constructor
  · intro k
    rw [getKey_saveConfig]
    simp [saveBase, getKey, List.find?]
  · obtain ⟨a, b, c⟩ := p
    cases a <;> cases b <;> cases c <;> rfl

/-- Length of the `tasks` array of a document, when present. -/
def tasksLength (d : Doc) : Option Nat :=
  match getKey d "tasks" with
  | some (JVal.arr l) => some l.length
  | _ => none

/-- C5: `get-config` never raises and always returns a full document — a
missing file or malformed content yields the default empty document (only
the malformed case logs a parse error), and a legacy bare-array file of
length N yields the defaults with that array (length N) as `tasks` and
empty credential strings. -/
theorem get_config_fails_soft :
    getConfig DiskState.missing = (defaultConfig, false)
    ∧ getConfig DiskState.malformed = (defaultConfig, true)
    ∧ ∀ ts : List JVal,
        getConfig (DiskState.json (JVal.arr ts))
            = (setKey defaultConfig "tasks" (JVal.arr ts), false)
        ∧ getKey (getConfig (DiskState.json (JVal.arr ts))).1 "tasks"
            = some (JVal.arr ts)
        ∧ tasksLength (getConfig (DiskState.json (JVal.arr ts))).1 = some ts.length
        ∧ getKey (getConfig (DiskState.json (JVal.arr ts))).1 "feishu_app_id"
            = some (JVal.str "")
        ∧ getKey (getConfig (DiskState.json (JVal.arr ts))).1 "feishu_app_secret"
            = some (JVal.str "")
        ∧ getKey (getConfig (DiskState.json (JVal.arr ts))).1 "feishu_user_access_token"
            = some (JVal.str "")
        ∧ getKey (getConfig (DiskState.json (JVal.arr ts))).1 "feishu_user_refresh_token"
            = some (JVal.str "")
        ∧ getKey (getConfig (DiskState.json (JVal.arr ts))).1 "feishu_assets_token"
            = some (JVal.str "")
        ∧ ((getConfig (DiskState.json (JVal.arr ts))).1).map Prod.fst
            = defaultConfig.map Prod.fst :=
  ⟨rfl, rfl, fun _ => ⟨rfl, rfl, rfl, rfl, rfl, rfl, rfl, rfl, rfl⟩⟩

/-! ## Process supervision

Embedding of `getPythonPath`, the `run-sync` handler, the renderer's sync
button guard, and the `health-check` handler. Environment-supplied paths
(`process.resourcesPath`, `__dirname`) are opaque strings. -/

/-- Opaque stand-in for `process.resourcesPath`. -/
def resourcesPath : String := "<resourcesPath>"

/-- Opaque stand-in for `__dirname` (the electron-app directory). -/
def dirname : String := "<electron-app>"

/-- `path.join` of two segments, modelled as separator concatenation. -/
def pathJoin (a b : String) : String := a ++ "/" ++ b

/-- `getPythonPath()` (electron_main.js): in development mode
(`!app.isPackaged`) an interpreter invocation of the worker entry script;
when packaged, the bundled platform-specific executable with no args. -/
def getPythonPath (isPackaged : Bool) (winPlatform : Bool) : String × List String :=
  if !isPackaged then
    ("python3", ["main.py"])
  else
    let execName := if winPlatform then "doc-sync-core.exe" else "doc-sync-core"
    (pathJoin (pathJoin resourcesPath "python") execName, [])

/-- Working directory chosen for sync / probe spawns. -/
def syncCwd (isPackaged : Bool) : String :=
  if isPackaged then resourcesPath else pathJoin dirname ".."

/-- Payload of a `run-sync` IPC message. -/
structure SyncOptions where
  force : Bool

/-- Effects the main process performs synchronously inside a handler:
an IPC reply on `sync-log` / `sync-finished`, or a `spawn` call. -/
inductive MainEffect where
  | replyLog : String → MainEffect
  | spawnProc : String → List String → MainEffect
  | replyFinished : Bool → MainEffect

/-- The banner logged at the start of the `run-sync` handler. -/
def startBanner (command : String) (args : List String) (cwd : String) : String :=
  "🚀 Starting sync process...\nCommand: " ++ command ++ " "
    ++ String.intercalate " " args ++ "\nCWD: " ++ cwd ++ "\n"

/-- The synchronous body of `ipcMain.on('run-sync')`: resolve the command,
append `--force` when requested, log the banner, and spawn — with no check
whatsoever of whether a previous sync worker is still running (the handler
consults no such state). -/
def runSyncEffects (isPackaged winPlatform : Bool) (opts : SyncOptions) :
    List MainEffect :=
  let resolved := getPythonPath isPackaged winPlatform
  let args := if opts.force then resolved.2 ++ ["--force"] else resolved.2
  [MainEffect.replyLog (startBanner resolved.1 args (syncCwd isPackaged)),
   MainEffect.spawnProc resolved.1 args]

/-- Number of worker processes spawned by a list of effects. -/
def countSpawns (l : List MainEffect) : Nat :=
  (l.filter fun e => match e with
    | MainEffect.spawnProc _ _ => true
    | _ => false).length

/-- Command the renderer sends over the bridge. -/
inductive RendererCmd where
  | runSyncCmd : Bool → RendererCmd

/-- The renderer's sync-button click handler (renderer.js): if the button
already carries the `syncing` class the click returns immediately;
otherwise it enters the syncing state and sends one `run-sync` message
with the force checkbox's value. Result: (new syncing state, messages
sent). -/
def clickStart (syncing : Bool) (force : Bool) : Bool × List RendererCmd :=
  if syncing then (syncing, [])
  else (true, [RendererCmd.runSyncCmd force])

/-! ## The sync session event stream

A worker run is observed through the three listeners the handler attaches:
`stdout` data chunks, `stderr` data chunks, and a single `close` carrying
the exit code. Node delivers every data chunk before `close`. `Chunk` is
one stdout or stderr data event, in arrival order across both streams. -/

inductive Chunk where
  | out : String → Chunk
  | err : String → Chunk

def Chunk.isErr : Chunk → Bool
  | Chunk.out _ => false
  | Chunk.err _ => true

def Chunk.text : Chunk → String
  | Chunk.out s => s
  | Chunk.err s => s

/-- Events the UI receives over the bridge during a sync session. -/
inductive UiEvent where
  | log : String → UiEvent
  | finished : Bool → UiEvent

def UiEvent.isFinished : UiEvent → Bool
  | UiEvent.finished _ => true
  | _ => false

def UiEvent.payload : UiEvent → String
  | UiEvent.log m => m
  | UiEvent.finished _ => ""

/-- Prefix the stderr data listener adds to each chunk. -/
def errTag : String := "[ERROR] "

/-- The two data listeners of the `run-sync` handler: each stdout chunk is
forwarded verbatim as one `sync-log` event; each stderr chunk is forwarded
as one `sync-log` event prefixed with the error tag. -/
def chunkEvent : Chunk → UiEvent
  | Chunk.out s => UiEvent.log s
  | Chunk.err s => UiEvent.log (errTag ++ s)

/-- The log line sent from the `close` listener. -/
def exitBanner (code : Int) : String :=
  "\n✨ Process exited with code " ++ toString code

/-- The complete event stream one `run-sync` session delivers to the UI:
the start banner, one log event per output chunk in arrival order, then —
from the `close` listener, which Node fires after the stdio streams end —
the exit banner and the single `sync-finished` event with `code === 0`. -/
def runSyncSession (isPackaged winPlatform : Bool) (opts : SyncOptions)
    (chunks : List Chunk) (code : Int) : List UiEvent :=
  let resolved := getPythonPath isPackaged winPlatform
  let args := if opts.force then resolved.2 ++ ["--force"] else resolved.2
  UiEvent.log (startBanner resolved.1 args (syncCwd isPackaged))
    :: (chunks.map chunkEvent
        ++ [UiEvent.log (exitBanner code), UiEvent.finished (code == 0)])

/-! ## Health check -/

/-- Result a health-check promise resolves with. -/
structure ProbeResult where
  success : Bool
  output : String
deriving DecidableEq

/-- Observable actions of the health-check handler's callbacks: a `resolve`
of the promise, or a `child.kill()`. -/
inductive ProbeEvent where
  | resolve : ProbeResult → ProbeEvent
  | kill : ProbeEvent
deriving DecidableEq

/-- The `setTimeout` delay of the health-check handler. -/
def probeTimeoutMs : Nat := 5000

/-- Timed actions performed by the callbacks the `health-check` handler
installs, in time order, for a worker that exits at time `t` with `code`
(`exit = some (t, code)`) or never exits on its own (`exit = none`), with
`output` the combined stdout/stderr text accumulated before the close.
The handler never calls `clearTimeout`, so the 5000 ms callback always
runs, performing `child.kill()` and a second `resolve` even when the
process already exited. When the deadline fires first the kill terminates
the worker, whose own close callback then fires; its resolve is discarded
by the already-settled promise and is omitted here. -/
def healthCheckTrace (exit : Option (Nat × Int)) (output : String) :
    List (Nat × ProbeEvent) :=
  match exit with
  | some (t, code) =>
    if t < probeTimeoutMs then
      [(t, ProbeEvent.resolve ⟨code == 0, output⟩),
       (probeTimeoutMs, ProbeEvent.kill),
       (probeTimeoutMs, ProbeEvent.resolve ⟨false, "Timeout"⟩)]
    else
      [(probeTimeoutMs, ProbeEvent.kill),
       (probeTimeoutMs, ProbeEvent.resolve ⟨false, "Timeout"⟩)]
  | none =>
      [(probeTimeoutMs, ProbeEvent.kill),
       (probeTimeoutMs, ProbeEvent.resolve ⟨false, "Timeout"⟩)]

/-- A promise settles with its first `resolve`; later resolves are no-ops. -/
def firstResolve : List (Nat × ProbeEvent) → Option ProbeResult
  | [] => none
  | (_, ProbeEvent.resolve r) :: _ => some r
  | _ :: rest => firstResolve rest

/-- The value the health-check promise resolves with. -/
def healthCheckResult (exit : Option (Nat × Int)) (output : String) :
    Option ProbeResult :=
  firstResolve (healthCheckTrace exit output)

/-- The argument list the `health-check` handler actually passes to `spawn`:
the handler computes `checkArgs = [...args]` but never uses it, spawning
`command` with the literal list `['--help']`. -/
def healthCheckSpawn (isPackaged winPlatform : Bool) : String × List String :=
  let resolved := getPythonPath isPackaged winPlatform
  (resolved.1, ["--help"])

/-! ## Child process listeners attached by run-sync -/

/-- Event kinds a Node `ChildProcess` can emit that matter here. -/
inductive ChildEvent where
  | dataOut : ChildEvent
  | dataErr : ChildEvent
  | closeEv : ChildEvent
  | errorEv : ChildEvent
deriving DecidableEq

/-- The listener set the `run-sync` handler attaches to the spawned child:
`child.stdout.on('data')`, `child.stderr.on('data')`, `child.on('close')`.
No `error` listener is attached. -/
def runSyncListeners : List ChildEvent :=
  [ChildEvent.dataOut, ChildEvent.dataErr, ChildEvent.closeEv]

/-- Node `EventEmitter` semantics: emitting `error` with no `error`
listener raises the error as an unhandled exception. -/
def emitUnhandledFault (listeners : List ChildEvent) (e : ChildEvent) : Bool :=
  e == ChildEvent.errorEv && !(listeners.contains ChildEvent.errorEv)

/-- The main process handles each received `run-sync` message in order by
running the handler body. -/
def processRunSyncMessages (isPackaged winPlatform : Bool) :
    List SyncOptions → List MainEffect
  | [] => []
  | m :: rest =>
      runSyncEffects isPackaged winPlatform m
        ++ processRunSyncMessages isPackaged winPlatform rest

theorem countSpawns_append (a b : List MainEffect) :
    countSpawns (a ++ b) = countSpawns a + countSpawns b := by
  simp [countSpawns, List.filter_append]

theorem countSpawns_runSyncEffects (isPackaged winPlatform : Bool)
    (opts : SyncOptions) :
    countSpawns (runSyncEffects isPackaged winPlatform opts) = 1 := by
  cases isPackaged <;> cases winPlatform <;> rcases opts with ⟨f⟩ <;> cases f <;> rfl

/-- C2 counterexample: two `run-sync` commands received with no intervening
worker exit spawn two worker processes — the handler consults no liveness
state, so the second command is not a no-op. -/
theorem run_sync_second_command_spawns :
    countSpawns (processRunSyncMessages false false [⟨false⟩, ⟨false⟩]) = 2
    ∧ ¬ countSpawns (processRunSyncMessages false false [⟨false⟩, ⟨false⟩]) ≤ 1 := by
  constructor <;> decide

/-- C2 amended: the main process applies no single-flight guard — every
received `run-sync` command spawns one more worker regardless of whether a
previous worker is still running; re-entrancy is prevented only in the
renderer, where a click on the sync button in the `syncing` state is
ignored and sends no `run-sync` command. -/
theorem run_sync_unguarded_spawn :
    (∀ (msgs : List SyncOptions) (isPackaged winPlatform : Bool),
        countSpawns (processRunSyncMessages isPackaged winPlatform msgs)
          = msgs.length)
    ∧ (∀ syncing force : Bool, syncing = true →
        clickStart syncing force = (syncing, [])) := by
  constructor
  · intro msgs isPackaged winPlatform
    induction msgs with
    | nil => rfl
    | cons m rest ih =>
      rw [processRunSyncMessages, countSpawns_append,
        countSpawns_runSyncEffects, ih, List.length_cons]
      omega
  · intro syncing force h
    subst h
    rfl

/-- C2 amended-claim witness at a concrete input: two received messages
produce two spawns, and a click while syncing is a no-op. -/
theorem run_sync_unguarded_spawn_witness :
    countSpawns (processRunSyncMessages false false [⟨false⟩, ⟨true⟩]) = 2
    ∧ clickStart true false = (true, []) :=
  ⟨(run_sync_unguarded_spawn.1 [⟨false⟩, ⟨true⟩] false false).trans rfl,
   run_sync_unguarded_spawn.2 true false rfl⟩

theorem chunkEvent_isLog (c : Chunk) : ∃ m, chunkEvent c = UiEvent.log m := by
  cases c <;> exact ⟨_, rfl⟩

theorem filter_isFinished_map_chunkEvent (chunks : List Chunk) :
    (chunks.map chunkEvent).filter UiEvent.isFinished = [] := by
  induction chunks with
  | nil => rfl
  | cons c rest ih =>
    obtain ⟨m, hm⟩ := chunkEvent_isLog c
    simp [hm, UiEvent.isFinished, ih]

/-- C4: every sync session delivers exactly one `sync-finished` event, it
comes strictly after every `sync-log` event of the session, and its payload
is true iff the worker's exit code is 0. -/
theorem sync_finished_once_after_logs (isPackaged winPlatform : Bool)
    (opts : SyncOptions) (chunks : List Chunk) (code : Int) :
    (∃ logs : List UiEvent,
        runSyncSession isPackaged winPlatform opts chunks code
          = logs ++ [UiEvent.finished (code == 0)]
        ∧ ∀ e ∈ logs, ∃ m, e = UiEvent.log m)
    ∧ (runSyncSession isPackaged winPlatform opts chunks code).filter
        UiEvent.isFinished = [UiEvent.finished (code == 0)]
    ∧ ((code == 0) = true ↔ code = 0) := by
  refine ⟨⟨UiEvent.log (startBanner (getPythonPath isPackaged winPlatform).1
      (if opts.force then (getPythonPath isPackaged winPlatform).2 ++ ["--force"]
       else (getPythonPath isPackaged winPlatform).2) (syncCwd isPackaged))
      :: (chunks.map chunkEvent ++ [UiEvent.log (exitBanner code)]), ?_, ?_⟩, ?_, ?_⟩
  · simp [runSyncSession]
  · intro e he
    simp only [List.mem_cons, List.mem_append, List.mem_singleton] at he
    rcases he with h | h | h | h
    · exact ⟨_, h⟩
    · rcases List.mem_map.mp h with ⟨c, _, hc⟩
      obtain ⟨m, hm⟩ := chunkEvent_isLog c
      exact ⟨m, hc ▸ hm⟩
    · exact ⟨_, h⟩
    · cases h
  · simp [runSyncSession, List.filter_append, filter_isFinished_map_chunkEvent,
      UiEvent.isFinished]
  · exact beq_iff_eq

/-- C9: within a session the worker's chunks appear as one log event per
chunk, in arrival order, nothing buffered or dropped; restricted to the
stdout stream and concatenated they reproduce stdout exactly, and the
stderr events each carry the distinct error tag followed by the chunk, so
the untagged parts concatenate to stderr exactly. -/
theorem sync_log_stream_fidelity (isPackaged winPlatform : Bool)
    (opts : SyncOptions) (chunks : List Chunk) (code : Int) :
    runSyncSession isPackaged winPlatform opts chunks code
      = UiEvent.log (startBanner (getPythonPath isPackaged winPlatform).1
          (if opts.force then (getPythonPath isPackaged winPlatform).2 ++ ["--force"]
           else (getPythonPath isPackaged winPlatform).2) (syncCwd isPackaged))
        :: (chunks.map chunkEvent
            ++ [UiEvent.log (exitBanner code), UiEvent.finished (code == 0)])
    ∧ (chunks.map chunkEvent).length = chunks.length
    ∧ String.join (((chunks.filter fun c => !c.isErr).map chunkEvent).map
          UiEvent.payload)
        = String.join ((chunks.filter fun c => !c.isErr).map Chunk.text)
    ∧ ((chunks.filter fun c => c.isErr).map chunkEvent)
        = (chunks.filter fun c => c.isErr).map
            (fun c => UiEvent.log (errTag ++ c.text))
    ∧ ∃ stripped : List String,
        (((chunks.filter fun c => c.isErr).map chunkEvent).map UiEvent.payload)
          = stripped.map (fun s => errTag ++ s)
        ∧ String.join stripped
            = String.join ((chunks.filter fun c => c.isErr).map Chunk.text) := by
  refine ⟨rfl, List.length_map _ _, ?_, ?_, ?_⟩
  · congr 1
    rw [List.map_map]
    refine List.map_congr_left ?_
    intro c hc
    have hf := (List.mem_filter.mp hc).2
    cases c with
    | out s => rfl
    | err s => simp [Chunk.isErr] at hf
  · refine List.map_congr_left ?_
    intro c hc
    have hf := (List.mem_filter.mp hc).2
    cases c with
    | out s => simp [Chunk.isErr] at hf
    | err s => rfl
  · refine ⟨(chunks.filter fun c => c.isErr).map Chunk.text, ?_, rfl⟩
    rw [List.map_map, List.map_map]
    refine List.map_congr_left ?_
    intro c hc
    have hf := (List.mem_filter.mp hc).2
    cases c with
    | out s => simp [Chunk.isErr] at hf
    | err s => rfl

/-- C3: the health-check promise always resolves; it resolves with
`success = true` iff the worker exits with status 0 before the 5000 ms
deadline; when the deadline elapses first it resolves with
`{success: false, output: "Timeout"}` and the worker is forcibly killed,
so a worker that never exits on its own is not left running. -/
theorem health_check_deadline (exit : Option (Nat × Int)) (output : String) :
    (healthCheckResult exit output).isSome = true
    ∧ ((healthCheckResult exit output).map ProbeResult.success = some true
        ↔ ∃ t, t < probeTimeoutMs ∧ exit = some (t, 0))
    ∧ ((∀ t c, exit = some (t, c) → probeTimeoutMs ≤ t) →
        healthCheckResult exit output = some ⟨false, "Timeout"⟩
        ∧ (probeTimeoutMs, ProbeEvent.kill) ∈ healthCheckTrace exit output) := by
  rcases exit with _ | ⟨t, code⟩
  · refine ⟨rfl, ?_, fun _ => ⟨rfl, ?_⟩⟩
    · simp [healthCheckResult, healthCheckTrace, firstResolve]
    · simp [healthCheckTrace]
  · by_cases ht : t < probeTimeoutMs
    · refine ⟨?_, ?_, ?_⟩
      · simp [healthCheckResult, healthCheckTrace, firstResolve, ht]
      · simp only [healthCheckResult, healthCheckTrace, ht, if_true, firstResolve,
          Option.map_some]
        constructor
        · intro h
          have hc : code = 0 := by
            have := Option.some.inj h
            exact beq_iff_eq.mp this
          exact ⟨t, ht, by rw [hc]⟩
        · rintro ⟨t', ht', he⟩
          have h1 : t = t' ∧ code = 0 := by
            have := Option.some.inj he
            exact ⟨(Prod.mk.injEq _ _ _ _ ▸ this).1, (Prod.mk.injEq _ _ _ _ ▸ this).2⟩
          rw [h1.2]
          rfl
      · intro h
        exact absurd (h t code rfl) (by omega)
    · refine ⟨?_, ?_, ?_⟩
      · simp [healthCheckResult, healthCheckTrace, firstResolve, ht]
      · simp only [healthCheckResult, healthCheckTrace, ht, if_false, firstResolve,
          Option.map_some]
        constructor
        · intro h
          cases Option.some.inj h
        · rintro ⟨t', ht', he⟩
          have : t = t' := (Prod.mk.injEq _ _ _ _ ▸ Option.some.inj he).1
          omega
      · intro _
        exact ⟨by simp [healthCheckResult, healthCheckTrace, firstResolve, ht],
          by simp [healthCheckTrace, ht]⟩

/-- C3 witness: a worker that never exits — the probe resolves with
`{success: false, output: "Timeout"}` and the worker is killed. -/
theorem health_check_deadline_witness :
    healthCheckResult none "" = some ⟨false, "Timeout"⟩
    ∧ (probeTimeoutMs, ProbeEvent.kill) ∈ healthCheckTrace none "" :=
  (health_check_deadline none "").2.2 (fun t c h => by cases h)

/-- C6 counterexample: the worker exits at 10 ms with code 0, yet the
5000 ms timer still fires — the trace contains the kill attempt and the
second (discarded) resolve, because the handler never cancels the timer. -/
theorem health_check_timer_fires_after_exit :
    (probeTimeoutMs, ProbeEvent.kill) ∈ healthCheckTrace (some (10, 0)) "ok"
    ∧ (probeTimeoutMs, ProbeEvent.resolve ⟨false, "Timeout"⟩)
        ∈ healthCheckTrace (some (10, 0)) "ok" := by
  constructor <;> decide

/-- C6 amended: the timeout timer is never cancelled — after an early
process exit it still fires at 5000 ms and attempts a kill and a second
resolve — but this has no effect on the promise's value, which keeps the
result determined by the process exit. -/
theorem health_check_timer_not_cancelled (t : Nat) (code : Int) (output : String)
    (h : t < probeTimeoutMs) :
    healthCheckResult (some (t, code)) output = some ⟨code == 0, output⟩
    ∧ (probeTimeoutMs, ProbeEvent.kill) ∈ healthCheckTrace (some (t, code)) output
    ∧ (probeTimeoutMs, ProbeEvent.resolve ⟨false, "Timeout"⟩)
        ∈ healthCheckTrace (some (t, code)) output := by
  refine ⟨?_, ?_, ?_⟩ <;> simp [healthCheckResult, healthCheckTrace, firstResolve, h]

/-- C6 amended-claim witness at the concrete input of the counterexample. -/
theorem health_check_timer_not_cancelled_witness :
    healthCheckResult (some (10, 0)) "ok" = some ⟨true, "ok"⟩
    ∧ (probeTimeoutMs, ProbeEvent.kill) ∈ healthCheckTrace (some (10, 0)) "ok"
    ∧ (probeTimeoutMs, ProbeEvent.resolve ⟨false, "Timeout"⟩)
        ∈ healthCheckTrace (some (10, 0)) "ok" :=
  have h := health_check_timer_not_cancelled 10 0 "ok" (by decide)
  ⟨h.1.trans (by decide), h.2.1, h.2.2⟩

/-- C7 (code evaluation at the failing input): in development mode the
health check resolves the worker as `python3 main.py`, but the handler
spawns `python3` with the literal argument list `['--help']` — the
`checkArgs` copy of the resolved arguments is never used, so the entry
script is dropped and the probe runs the bare interpreter. -/
theorem health_check_spawn_drops_resolved_args :
    healthCheckSpawn false false = ("python3", ["--help"])
    ∧ getPythonPath false false = ("python3", ["main.py"])
    ∧ healthCheckSpawn false false ≠ ("python3", ["main.py", "--help"]) := by
  refine ⟨rfl, rfl, ?_⟩
  decide

/-- C8 (code evaluation at the failing input): the `run-sync` handler
attaches data and close listeners but no `error` listener, so a spawn
failure's `error` event is emitted with no listener — an unhandled fault
under Node's EventEmitter semantics, not a failed terminal event. -/
theorem run_sync_spawn_failure_unhandled :
    ChildEvent.errorEv ∉ runSyncListeners
    ∧ emitUnhandledFault runSyncListeners ChildEvent.errorEv = true := by
  constructor <;> decide

end DocSync
